import Mathlib

/-!
Shallow embedding of `src/lib/spotify.js` from the song-classifier repository.

The file models the `Spotify` class: the `sleep` helper and the
`getTop100AudioData(genre)` pipeline (playlist lookup, tracklist fetch,
batched audio-features fetch, per-track audio-analysis fan-out, and the
single retry pass).  JavaScript objects keyed by track id (`songData`)
are modelled as association lists with in-place overwrite; JavaScript
`null`/`undefined` become `Option.none`; `NaN` produced by
`parseInt`/arithmetic is modelled by `Option.none` on the numeric field
it can inhabit; thrown `TypeError`s (property access on `undefined`) and
axios rejections become explicit `Except` errors.
-/

set_option maxHeartbeats 1000000

namespace Spotify

/-- JavaScript values that can be passed for the `genre` parameter; the
source checks `typeof genre !== 'string'`. -/
inductive JsVal where
  | str (s : String)
  | num (n : Int)
  | boolean (b : Bool)
  | nullV
  | undef
  deriving DecidableEq, Repr

/-- True exactly when `typeof v === 'string'` in JavaScript. -/
def JsVal.isStr : JsVal → Bool
  | .str _ => true
  | _ => false

/-- One entry of the tracklist response (`trackItem.track` in the source):
id, name and popularity, each of which the upstream JSON may set to `null`. -/
structure TrackItem where
  id : Option String
  name : Option String
  popularity : Option Int
  deriving DecidableEq, Repr

/-- One object of the batched audio-features response
(`response.data.audio_features` in the source).  The attached features value
is the object itself; only the fields the pipeline reads are listed. -/
structure FeatureObj where
  id : Option String
  analysis_url : String
  deriving DecidableEq, Repr

/-- One record of `songData`: `{ name, popularity }` built by the tracklist
stage, with `features` / `analysis` assigned later. -/
structure SongRecord where
  name : Option String
  popularity : Option Int
  features : Option FeatureObj := none
  analysis : Option String := none
  deriving DecidableEq, Repr

/-- The `songData` object: a JavaScript object keyed by track-id string,
modelled as an association list whose construction keeps keys unique. -/
abbrev SongData := List (String × SongRecord)

/-- JavaScript property-key coercion for a possibly-`null` id:
`songData[null]` addresses the key `"null"`. -/
def jsKey : Option String → String
  | some s => s
  | none => "null"

/-- JavaScript property-key coercion for a possibly-`undefined` string
(out-of-range array index): `songData[undefined]` addresses `"undefined"`. -/
def jsIdxKey : Option String → String
  | some s => s
  | none => "undefined"

/-- JavaScript errors the pipeline can surface. -/
structure ErrResp where
  status : Nat
  retryAfter : Option String
  deriving DecidableEq, Repr

/-- An axios rejection: `err.response` is absent for network-level failures
with no HTTP response; `err.config.url` is the originating request URL. -/
structure AxiosError where
  response : Option ErrResp
  config_url : String
  deriving DecidableEq, Repr

/-- Errors of the embedded pipeline: an explicitly thrown `new Error(msg)`,
a `TypeError` from dereferencing `undefined`, or a propagated axios
rejection from one of the blocking stages. -/
inductive JsErr where
  | errorMsg (msg : String)
  | typeError
  | axios (e : AxiosError)
  deriving DecidableEq, Repr

/-- Property lookup `m[k]` on the songData object. -/
def objGet : SongData → String → Option SongRecord
  | [], _ => none
  | p :: m, k => if p.1 = k then some p.2 else objGet m k

/-- Property assignment `m[k] = v`: overwrite the entry if the key exists,
append it otherwise. -/
def objSet : SongData → String → SongRecord → SongData
  | [], k, v => [(k, v)]
  | p :: m, k, v => if p.1 = k then (k, v) :: m else p :: objSet m k v

/-- Field update `m[k].field = ...`: if the key is absent, `m[k]` is
`undefined` and the assignment throws a `TypeError`. -/
def objModify : SongData → String → (SongRecord → SongRecord) → Except JsErr SongData
  | [], _, _ => .error .typeError
  | p :: m, k, f =>
    if p.1 = k then .ok ((p.1, f p.2) :: m)
    else (objModify m k f).map (p :: ·)

/-- Decimal value of a digit list. -/
def digitsVal (cs : List Char) : Nat :=
  cs.foldl (fun a c => a * 10 + (c.toNat - 48)) 0

/-- JavaScript `parseInt` on a string, base 10: skip leading whitespace,
optional sign, then leading digits; `none` models `NaN` (no digits). -/
def jsParseInt (s : String) : Option Int :=
  let cs := s.data.dropWhile (fun c => c == ' ' || c == '\t' || c == '\n' || c == '\r')
  match cs with
  | '-' :: rest =>
    let ds := rest.takeWhile Char.isDigit
    if ds.isEmpty then none else some (-(digitsVal ds : Int))
  | '+' :: rest =>
    let ds := rest.takeWhile Char.isDigit
    if ds.isEmpty then none else some ((digitsVal ds : Int))
  | _ =>
    let ds := cs.takeWhile Char.isDigit
    if ds.isEmpty then none else some ((digitsVal ds : Int))

/-- `err.response.headers['retry-after'] ? parseInt(...) : NaN`: an absent
or empty (falsy) header yields `NaN` (`none`), otherwise `parseInt`. -/
def retryAfterVal : Option String → Option Int
  | none => none
  | some s => if s = "" then none else jsParseInt s

/-- The failure object built by the fan-out catch handler:
`{ status, url, timeout }`, with `timeout = NaN` (`none`) when the
rate-limit header is missing or unparsable. -/
structure FailureRecord where
  status : Nat
  url : String
  timeout : Option Int
  deriving DecidableEq, Repr

/-- A fulfilled axios response: status, the path of its own request
(`song.request.path`), and the payload (`song.data`, kept opaque). -/
structure RespObj where
  status : Nat
  request_path : String
  data : String
  deriving DecidableEq, Repr

/-- A settled element of the fan-out `Promise.all` array: either a fulfilled
axios response or the object returned by the catch handler. -/
inductive Settled where
  | resp (r : RespObj)
  | fail (f : FailureRecord)
  deriving DecidableEq, Repr

/-- A settled element of the retry `Promise.all` array: the retry catch
handler replaces any rejection by the empty object `{}`. -/
inductive RetrySettled where
  | resp (r : RespObj)
  | emptyObj
  deriving DecidableEq, Repr

/-- The fan-out catch handler (source lines 126-131).  It reads
`err.response.status`, so a network-level rejection with no `response`
throws a `TypeError` of its own. -/
def analysisCatch (e : AxiosError) : Except JsErr FailureRecord :=
  match e.response with
  | none => .error .typeError
  | some r => .ok { status := r.status, url := e.config_url, timeout := retryAfterVal r.retryAfter }

/-- Settled value of `Axios(analysisRequest).catch(handler)` given the raw
axios outcome of the request. -/
def settleAnalysis : Except AxiosError RespObj → Except JsErr Settled
  | .ok r => .ok (.resp r)
  | .error e => (analysisCatch e).map .fail

/-- Settled value of `Axios(retry).catch(err => { return {} })`. -/
def settleRetry : Except AxiosError RespObj → RetrySettled
  | .ok r => .resp r
  | .error _ => .emptyObj

/-- Whether an axios outcome carries an HTTP response (fulfilled, or
rejected with `err.response` present). -/
def hasResponse : Except AxiosError RespObj → Bool
  | .ok _ => true
  | .error e => e.response.isSome

/-- The settled value the fan-out produces for an outcome that carries a
response; the `none` branch is junk never reached under `hasResponse`. -/
def settleVal : Except AxiosError RespObj → Settled
  | .ok r => .resp r
  | .error e =>
    match e.response with
    | some r => .fail { status := r.status, url := e.config_url, timeout := retryAfterVal r.retryAfter }
    | none => .fail { status := 0, url := e.config_url, timeout := none }

/-- `Promise.all`: all fulfilled values in input order, or the first
rejection (the model resolves the nondeterministic race by list order;
all handlers here reject with the same `TypeError` anyway). -/
def promiseAll : List (Except JsErr Settled) → Except JsErr (List Settled)
  | [] => .ok []
  | x :: xs =>
    match x with
    | .error e => .error e
    | .ok a =>
      match promiseAll xs with
      | .error e => .error e
      | .ok as => .ok (a :: as)

/-- An element of the `errors` array collected by the merge step.  A
catch-handler failure object contributes `{ status, url, timeout }`; a
fulfilled non-200 response is pushed as-is, and its `url` and `timeout`
properties are `undefined` (`none`). -/
structure ErrEntry where
  status : Nat
  url : Option String
  timeout : Option Int
  deriving DecidableEq, Repr

/-- The tracklist stage body (source lines 101-108), accumulator form of the
`forEach`: `songData[trackItem.track.id] = { name, popularity }`. -/
def buildSongDataGo : SongData → List TrackItem → SongData
  | m, [] => m
  | m, t :: ts =>
    buildSongDataGo (objSet m (jsKey t.id) { name := t.name, popularity := t.popularity }) ts

/-- `songData` as populated by the tracklist stage. -/
def buildSongData (items : List TrackItem) : SongData :=
  buildSongDataGo [] items

/-- `featureUrl` built by the tracklist stage and then `.slice(0, -1)`:
the base URL plus each id and a comma, with the final character dropped. -/
def buildFeatureUrl (items : List TrackItem) : String :=
  (items.foldl (fun u t => u ++ jsKey t.id ++ ",")
    "https://api.spotify.com/v1/audio-features/?ids=").dropRight 1

/-- The features stage body (source lines 117-131): for each feature object,
assign `songData[song.id].features = song` (a `TypeError` if that id is not
a key of `songData`), then push the analysis request for `song.analysis_url`.
Returns the updated map (or the thrown error) together with the list of
analysis-request URLs that were issued before any throw. -/
def attachAndIssue : SongData → List FeatureObj → Except JsErr SongData × List String
  | m, [] => (.ok m, [])
  | m, f :: fs =>
    match objModify m (jsKey f.id) (fun sr => { sr with features := some f }) with
    | .error e => (.error e, [])
    | .ok m2 =>
      let r := attachAndIssue m2 fs
      (r.1, f.analysis_url :: r.2)

/-- Splitter body for `jsSplit`: cut the character list at every separator,
keeping empty segments, as JavaScript `split` does with a one-character
separator. -/
def splitOnCharGo (sep : Char) : List Char → List Char → List (List Char)
  | [], acc => [acc.reverse]
  | c :: cs, acc =>
    if c = sep then acc.reverse :: splitOnCharGo sep cs []
    else splitOnCharGo sep cs (c :: acc)

/-- JavaScript `s.split(sep)` for a one-character separator. -/
def jsSplit (s : String) (sep : Char) : List String :=
  (splitOnCharGo sep s.data []).map String.mk

/-- Fourth `split('/')` segment of a response's own request path, the id used
to key analysis payloads; an out-of-range index is `undefined` and addresses
the key `"undefined"`. -/
def pathKey (p : String) : String :=
  jsIdxKey ((jsSplit p '/')[3]?)

/-- The merge step over the settled fan-out array (source lines 135-144):
non-200 settled values are pushed onto `errors` in order (a fulfilled
non-200 response contributes its status with `undefined` url and timeout);
each 200 response is attached by the id parsed from its own request path.
A settled catch-object with status 200 would dereference its missing
`request` field, a `TypeError`. -/
def mergeSettled : SongData → List ErrEntry → List Settled → Except JsErr (SongData × List ErrEntry)
  | m, errs, [] => .ok (m, errs)
  | m, errs, .resp r :: rest =>
    if r.status == 200 then
      match objModify m (pathKey r.request_path) (fun sr => { sr with analysis := some r.data }) with
      | .error e => .error e
      | .ok m2 => mergeSettled m2 errs rest
    else mergeSettled m (errs ++ [ErrEntry.mk r.status none none]) rest
  | m, errs, .fail f :: rest =>
    if f.status == 200 then .error .typeError
    else mergeSettled m (errs ++ [ErrEntry.mk f.status (some f.url) f.timeout]) rest

/-- The back-off computation (source lines 147-155): `timeout` starts at 0;
the first error with status 429 sets `timeout = (err.timeout + 2) * 1000`
and breaks.  `none` models `NaN` (when the 429 carried no parsable
rate-limit header, `NaN + 2` times 1000 is still `NaN`). -/
def computeTimeout : List ErrEntry → Option Int
  | [] => some 0
  | e :: rest =>
    if e.status == 429 then e.timeout.map (fun t => (t + 2) * 1000)
    else computeTimeout rest

/-- The delay `setTimeout` actually uses for a given number: `NaN` and
negative values are coerced to 0. -/
def jsDelay : Option Int → Nat
  | none => 0
  | some t => t.toNat

/-- Whether a settled retry counts as a residual failure:
`(song.status || '') === 200` fails for the empty object and for any
non-200 status. -/
def retryFails : RetrySettled → Bool
  | .emptyObj => true
  | .resp r => !(r.status == 200)

/-- The merge step over the settled retry array (source lines 169-177):
200 responses are attached by the id parsed from their own request path,
everything else increments the residual counter `i`. -/
def mergeRetries : SongData → Nat → List RetrySettled → Except JsErr (SongData × Nat)
  | m, i, [] => .ok (m, i)
  | m, i, .emptyObj :: rest => mergeRetries m (i + 1) rest
  | m, i, .resp r :: rest =>
    if r.status == 200 then
      match objModify m (pathKey r.request_path) (fun sr => { sr with analysis := some r.data }) with
      | .error e => .error e
      | .ok m2 => mergeRetries m2 i rest
    else mergeRetries m (i + 1) rest

/-- How the argument of `setTimeout` is written in the source:
`setTimeout(resolve, delay)` passes the callback itself, while
`setTimeout(resolve(), delay)` evaluates `resolve()` immediately and passes
its result, resolving the promise at once. -/
inductive TimerArgStyle where
  | passCallback
  | passResult
  deriving DecidableEq, Repr

/-- Resolution time of `new Promise(resolve => setTimeout(arg, delayMs))`
called at `callTime`, for the two argument styles. -/
def promiseResolveTime (callTime delayMs : Nat) : TimerArgStyle → Nat
  | .passCallback => callTime + delayMs
  | .passResult => callTime

/-- The source's `sleep` (line 7) is
`delay => new Promise(resolve => setTimeout(resolve(), delay))`: the
argument `resolve()` is an immediate invocation, so the promise resolves at
the call time itself. -/
def sleep (callTime delayMs : Nat) : Nat :=
  promiseResolveTime callTime delayMs .passResult

/-- An item of the playlist response: only `tracks.href` is read. -/
structure PlaylistItem where
  tracks_href : String
  deriving DecidableEq, Repr

/-- `response.data.playlists` of the category-playlists response. -/
structure Playlists where
  items : List PlaylistItem
  deriving DecidableEq, Repr

/-- The upstream environment of one `getTop100AudioData` run: the settled
outcome of each HTTP request the pipeline can make.  Blocking-stage
outcomes are single axios results; fan-out and retry outcomes are indexed
by the position of the issued request. -/
structure Env where
  genre : JsVal
  playlistResp : Except AxiosError Playlists
  tracklistResp : Except AxiosError (List TrackItem)
  featuresResp : Except AxiosError (List FeatureObj)
  analysisOutcome : Nat → Except AxiosError RespObj
  retryOutcome : Nat → Except AxiosError RespObj

/-- Observable side effects of one run: which blocking requests were
issued, the analysis / retry request URLs in issue order, the values passed
to `sleep` (in ms, `none` for `NaN`), and the logged residual count. -/
structure Trace where
  playlistCalled : Bool := false
  tracklistCalled : Bool := false
  tracklistUrl : Option String := none
  featuresCalled : Bool := false
  featuresUrl : Option String := none
  analysisUrls : List String := []
  sleeps : List (Option Int) := []
  retryUrls : List (Option String) := []
  residualReported : Option Nat := none
  deriving DecidableEq, Repr

/-- The fan-out and retry phase (source lines 116-183), from the features
response onward: attach features and issue analysis requests, await them
(`Promise.all`), merge, and if any errors were collected compute the
back-off, sleep, issue one retry per failed URL and merge the retries,
reporting the residual count; with no errors resolve the map unchanged. -/
def fanoutRetryPhase (m0 : SongData) (feats : List FeatureObj)
    (ao ro : Nat → Except AxiosError RespObj) : Except JsErr SongData × Trace :=
  match attachAndIssue m0 feats with
  | (.error e, urls) => (.error e, { analysisUrls := urls })
  | (.ok m1, urls) =>
    match promiseAll ((List.range urls.length).map (fun j => settleAnalysis (ao j))) with
    | .error e => (.error e, { analysisUrls := urls })
    | .ok songs =>
      match mergeSettled m1 [] songs with
      | .error e => (.error e, { analysisUrls := urls })
      | .ok (m2, errs) =>
        if errs.length > 0 then
          let tmo := computeTimeout errs
          let retries := (List.range errs.length).map (fun j => settleRetry (ro j))
          match mergeRetries m2 0 retries with
          | .error e =>
            (.error e,
             { analysisUrls := urls
               sleeps := [tmo]
               retryUrls := errs.map (fun e => e.url) })
          | .ok (m3, i) =>
            (.ok m3,
             { analysisUrls := urls
               sleeps := [tmo]
               retryUrls := errs.map (fun e => e.url)
               residualReported := some i })
        else (.ok m2, { analysisUrls := urls })

/-- The whole `getTop100AudioData(genre)` (source lines 81-188): the
`typeof` guard throws before any request; then playlist, tracklist and
features requests each abort the run on rejection; `playlists.items[0]` on
an empty list throws a `TypeError`; the fan-out and retry phase finishes
the run. -/
def getTop100AudioData (env : Env) : Except JsErr SongData × Trace :=
  if env.genre.isStr = false then
    (.error (.errorMsg "parameter `genre` must be of type string"), {})
  else
    match env.playlistResp with
    | .error e => (.error (.axios e), { playlistCalled := true })
    | .ok pl =>
      match pl.items with
      | [] => (.error .typeError, { playlistCalled := true })
      | item :: _ =>
        match env.tracklistResp with
        | .error e =>
          (.error (.axios e),
           { playlistCalled := true
             tracklistCalled := true
             tracklistUrl := some item.tracks_href })
        | .ok items =>
          let m0 := buildSongData items
          let fUrl := buildFeatureUrl items
          match env.featuresResp with
          | .error e =>
            (.error (.axios e),
             { playlistCalled := true
               tracklistCalled := true
               tracklistUrl := some item.tracks_href
               featuresCalled := true
               featuresUrl := some fUrl })
          | .ok feats =>
            let pr := fanoutRetryPhase m0 feats env.analysisOutcome env.retryOutcome
            (pr.1,
             { pr.2 with
               playlistCalled := true
               tracklistCalled := true
               tracklistUrl := some item.tracks_href
               featuresCalled := true
               featuresUrl := some fUrl })

/-! Concrete instances used to evaluate the theorems below on closed inputs. -/

/-- Analysis URL of track `a`. -/
def urlA : String := "https://api.spotify.com/v1/audio-analysis/a"

/-- Analysis URL of track `b`. -/
def urlB : String := "https://api.spotify.com/v1/audio-analysis/b"

/-- Feature object of track `a`. -/
def featA : FeatureObj := ⟨some "a", urlA⟩

/-- Feature object of track `b`. -/
def featB : FeatureObj := ⟨some "b", urlB⟩

/-- Fresh record of track `a`. -/
def recA : SongRecord := ⟨some "A", some 1, none, none⟩

/-- Fresh record of track `b`. -/
def recB : SongRecord := ⟨some "B", some 2, none, none⟩

/-- Fan-out outcomes with an HTTP response on every failure: one 429
rejection with a rate-limit header and one 200 response. -/
def c1outcomes : List (Except AxiosError RespObj) :=
  [.error ⟨some ⟨429, some "5"⟩, urlA⟩, .ok ⟨200, "/v1/audio-analysis/b", "db"⟩]

/-- Map holding only track `b`, the target of the 200 response above. -/
def c1m : SongData := [("b", recB)]

/-- Environment whose single analysis request fails at network level,
with no HTTP response. -/
def envC1 : Env :=
  { genre := .str "rock"
    playlistResp := .ok ⟨[⟨"https://tl"⟩]⟩
    tracklistResp := .ok [⟨some "a", some "A", some 1⟩]
    featuresResp := .ok [featA]
    analysisOutcome := fun _ => .error ⟨none, urlA⟩
    retryOutcome := fun _ => .error ⟨none, urlA⟩ }

/-- Tracklist map for two tracks `a` and `b`. -/
def c2m : SongData := [("a", recA), ("b", recB)]

/-- Features response listing `b` before `a`, the opposite of the map
order. -/
def c2feats : List FeatureObj := [featB, featA]

/-- Fan-out responses arriving `b` first, each carrying its own request
path. -/
def c2songs : List Settled :=
  [.resp ⟨200, "/v1/audio-analysis/b", "db"⟩, .resp ⟨200, "/v1/audio-analysis/a", "da"⟩]

/-- The map after attaching the two features. -/
def c2m1 : SongData :=
  [("a", ⟨some "A", some 1, some featA, none⟩), ("b", ⟨some "B", some 2, some featB, none⟩)]

/-- The map after merging the two analysis responses. -/
def c2m2 : SongData :=
  [("a", ⟨some "A", some 1, some featA, some "da"⟩),
   ("b", ⟨some "B", some 2, some featB, some "db"⟩)]

/-- Three failures: a 500, then a 429 with `retry-after` 5, then a 500. -/
def c3errs : List ErrEntry :=
  [⟨500, some "u1", none⟩, ⟨429, some "u2", some 5⟩, ⟨500, none, none⟩]

/-- Environment called with a non-string genre. -/
def envC4num : Env :=
  { genre := .num 3
    playlistResp := .ok ⟨[]⟩
    tracklistResp := .ok []
    featuresResp := .ok []
    analysisOutcome := fun _ => .error ⟨none, ""⟩
    retryOutcome := fun _ => .error ⟨none, ""⟩ }

/-- Environment whose category resolves to zero playlists. -/
def envC4zero : Env :=
  { genre := .str "rock"
    playlistResp := .ok ⟨[]⟩
    tracklistResp := .ok []
    featuresResp := .ok []
    analysisOutcome := fun _ => .error ⟨none, ""⟩
    retryOutcome := fun _ => .error ⟨none, ""⟩ }

/-- Environment called with the empty string as genre; the playlist request
then goes out and is rejected upstream. -/
def envC4empty : Env :=
  { genre := .str ""
    playlistResp := .error ⟨some ⟨404, none⟩, "https://api.spotify.com/v1/browse/categories//playlists"⟩
    tracklistResp := .ok []
    featuresResp := .ok []
    analysisOutcome := fun _ => .error ⟨none, ""⟩
    retryOutcome := fun _ => .error ⟨none, ""⟩ }

/-- Tracklist map with the single track `a`. -/
def c6m0 : SongData := buildSongData [⟨some "a", some "A", some 1⟩]

/-- Features response with the single feature of `a`. -/
def c6feats : List FeatureObj := [featA]

/-- Fan-out outcome: a 500 rejection carrying a response. -/
def c6ao : Nat → Except AxiosError RespObj := fun _ => .error ⟨some ⟨500, none⟩, urlA⟩

/-- Retry outcome: a network failure, swallowed into `{}` by the retry
catch handler. -/
def c6ro : Nat → Except AxiosError RespObj := fun _ => .error ⟨none, urlA⟩

/-- The map after attaching the single feature. -/
def c6m1 : SongData := [("a", ⟨some "A", some 1, some featA, none⟩)]

/-- The errors collected from the failed fan-out. -/
def c6errs : List ErrEntry := [⟨500, some urlA, none⟩]

/-- The settled retry array: one empty object. -/
def c6retries : List RetrySettled := [.emptyObj]

/-- Environment whose batched features request is rejected with a 503. -/
def envC7 : Env :=
  { genre := .str "rock"
    playlistResp := .ok ⟨[⟨"https://tl"⟩]⟩
    tracklistResp := .ok [⟨some "a", some "A", some 1⟩]
    featuresResp := .error ⟨some ⟨503, none⟩, "https://api.spotify.com/v1/audio-features/?ids=a"⟩
    analysisOutcome := fun _ => .error ⟨none, ""⟩
    retryOutcome := fun _ => .error ⟨none, ""⟩ }

/-- Fan-out outcome: a 200 response for track `a`. -/
def c8ao : Nat → Except AxiosError RespObj := fun _ => .ok ⟨200, "/v1/audio-analysis/a", "da"⟩

/-- The settled fan-out array for the outcome above. -/
def c8songs : List Settled := [.resp ⟨200, "/v1/audio-analysis/a", "da"⟩]

/-- The map after merging the single 200 analysis response. -/
def c8m2 : SongData := [("a", ⟨some "A", some 1, some featA, some "da"⟩)]

/-- A single track item with non-null fields. -/
def c9ok : List TrackItem := [⟨some "a", some "A", some 5⟩]

/-- A tracklist response of 101 items with distinct ids and null names and
popularities; the stage copies it without bounding or validating. -/
def c9items : List TrackItem :=
  (List.range 101).map (fun n => ⟨some (toString n), none, none⟩)

/-- Map holding only track `a`. -/
def c10m : SongData := buildSongData [⟨some "a", some "A", some 1⟩]

/-- Features response containing a feature object with a null id: its key
`"null"` is not in the map. -/
def c10feats : List FeatureObj := [⟨none, "u"⟩]

/-- Arbitrary analysis outcomes for exercising the phase. -/
def c10ao : Nat → Except AxiosError RespObj := fun _ => .error ⟨none, "u"⟩

/-! Lemmas about the object-model primitives. -/

theorem objGet_objSet (m : SongData) (k : String) (v : SongRecord) (k' : String) :
    objGet (objSet m k v) k' = if k' = k then some v else objGet m k' := by
  induction m with
  | nil =>
    simp only [objSet, objGet]
    by_cases h : k' = k
    · simp [h]
    · rw [if_neg (fun hh => h hh.symm), if_neg h]
  | cons p m ih =>
    by_cases hp : p.1 = k
    · rw [show objSet (p :: m) k v = (k, v) :: m from by simp [objSet, hp]]
      by_cases h : k' = k
      · subst h; simp [objGet]
      · rw [if_neg h]
        have hk : ¬ k = k' := fun hh => h hh.symm
        have hp2 : ¬ p.1 = k' := fun hh => hk (hp.symm.trans hh)
        simp only [objGet, if_neg hk, if_neg hp2]
    · rw [show objSet (p :: m) k v = p :: objSet m k v from by simp [objSet, hp]]
      by_cases h2 : p.1 = k'
      · have hk : ¬ k' = k := fun hh => hp (h2.trans hh)
        simp only [objGet, if_pos h2, if_neg hk]
      · simp only [objGet, if_neg h2, ih]

theorem mem_objSet (m : SongData) (k : String) (v : SongRecord) :
    ∀ p ∈ objSet m k v, p ∈ m ∨ p = (k, v) := by
  induction m with
  | nil => simp [objSet]
  | cons q m ih =>
    intro p hp
    by_cases hq : q.1 = k
    · rw [show objSet (q :: m) k v = (k, v) :: m from by simp [objSet, hq]] at hp
      rcases List.mem_cons.mp hp with h | h
      · right; exact h
      · left; exact List.mem_cons_of_mem _ h
    · rw [show objSet (q :: m) k v = q :: objSet m k v from by simp [objSet, hq]] at hp
      rcases List.mem_cons.mp hp with h | h
      · left; exact h ▸ List.mem_cons_self _ _
      · rcases ih p h with h2 | h2
        · left; exact List.mem_cons_of_mem _ h2
        · right; exact h2

theorem length_objSet (m : SongData) (k : String) (v : SongRecord) :
    (objSet m k v).length ≤ m.length + 1 := by
  induction m with
  | nil => simp [objSet]
  | cons q m ih =>
    by_cases hq : q.1 = k
    · simp [objSet, hq]
    · simp only [objSet, if_neg hq, List.length_cons]
      omega

theorem objModify_error (m : SongData) (k : String) (g : SongRecord → SongRecord) (e : JsErr)
    (h : objModify m k g = .error e) : e = .typeError ∧ objGet m k = none := by
  induction m with
  | nil =>
    simp only [objModify] at h
    cases h
    exact ⟨rfl, rfl⟩
  | cons p m ih =>
    by_cases hp : p.1 = k
    · simp [objModify, hp] at h
    · simp only [objModify, if_neg hp] at h
      cases h2 : objModify m k g with
      | ok m2 => rw [h2] at h; simp [Except.map] at h
      | error e2 =>
        rw [h2] at h; simp only [Except.map] at h
        cases h
        exact ⟨(ih h2).1, by simp only [objGet, if_neg hp]; exact (ih h2).2⟩

theorem objModify_none (m : SongData) (k : String) (g : SongRecord → SongRecord)
    (h : objGet m k = none) : objModify m k g = .error .typeError := by
  induction m with
  | nil => simp [objModify]
  | cons p m ih =>
    by_cases hp : p.1 = k
    · simp [objGet, hp] at h
    · simp only [objGet, if_neg hp] at h
      simp only [objModify, if_neg hp, ih h, Except.map]

theorem objModify_src (m : SongData) (k : String) (g : SongRecord → SongRecord) (m' : SongData)
    (h : objModify m k g = .ok m') : ∃ r, objGet m k = some r := by
  cases h2 : objGet m k with
  | some r => exact ⟨r, rfl⟩
  | none => rw [objModify_none m k g h2] at h; cases h

theorem objModify_get (m : SongData) (k : String) (g : SongRecord → SongRecord) (m' : SongData)
    (h : objModify m k g = .ok m') :
    ∀ k', objGet m' k' = if k' = k then (objGet m k').map g else objGet m k' := by
  induction m generalizing m' with
  | nil => simp [objModify] at h
  | cons p m ih =>
    intro k'
    by_cases hp : p.1 = k
    · simp only [objModify, if_pos hp] at h
      cases h
      by_cases h2 : k' = k
      · subst h2
        simp [objGet, hp]
      · have hp2 : ¬ p.1 = k' := fun hh => h2 (hp.symm.trans hh).symm
        simp only [objGet, if_neg hp2, if_neg h2]
    · simp only [objModify, if_neg hp] at h
      cases h2 : objModify m k g with
      | error e2 => rw [h2] at h; simp [Except.map] at h
      | ok m2 =>
        rw [h2] at h; simp only [Except.map] at h
        cases h
        by_cases h3 : p.1 = k'
        · have hk : ¬ k' = k := fun hh => hp (h3.trans hh)
          simp only [objGet, if_pos h3, if_neg hk]
        · simp only [objGet, if_neg h3, ih m2 h2 k']

theorem objModify_mem (m : SongData) (k : String) (g : SongRecord → SongRecord) (m' : SongData)
    (h : objModify m k g = .ok m') :
    ∀ p ∈ m', p ∈ m ∨ ∃ r, (k, r) ∈ m ∧ p = (k, g r) := by
  induction m generalizing m' with
  | nil => simp [objModify] at h
  | cons q m ih =>
    intro p hp
    by_cases hq : q.1 = k
    · simp only [objModify, if_pos hq] at h
      cases h
      rcases List.mem_cons.mp hp with h2 | h2
      · right
        exact ⟨q.2, by rw [← hq]; exact List.mem_cons_self _ _, by rw [h2, hq]⟩
      · left; exact List.mem_cons_of_mem _ h2
    · simp only [objModify, if_neg hq] at h
      cases h2 : objModify m k g with
      | error e2 => rw [h2] at h; simp [Except.map] at h
      | ok m2 =>
        rw [h2] at h; simp only [Except.map] at h
        cases h
        rcases List.mem_cons.mp hp with h3 | h3
        · left; exact h3 ▸ List.mem_cons_self _ _
        · rcases ih m2 h2 p h3 with h4 | ⟨r, hr, hpr⟩
          · left; exact List.mem_cons_of_mem _ h4
          · right; exact ⟨r, List.mem_cons_of_mem _ hr, hpr⟩

/-! Lemmas about the tracklist stage. -/

theorem buildSongDataGo_mem (ts : List TrackItem) :
    ∀ (m : SongData), ∀ p ∈ buildSongDataGo m ts,
      p ∈ m ∨ ∃ t ∈ ts, p = (jsKey t.id, { name := t.name, popularity := t.popularity }) := by
  induction ts with
  | nil =>
    intro m p hp
    left
    simpa [buildSongDataGo] using hp
  | cons t ts ih =>
    intro m p hp
    simp only [buildSongDataGo] at hp
    rcases ih _ p hp with h | ⟨t2, ht2, hpt⟩
    · rcases mem_objSet _ _ _ p h with h2 | h2
      · left; exact h2
      · right; exact ⟨t, List.mem_cons_self _ _, h2⟩
    · right; exact ⟨t2, List.mem_cons_of_mem _ ht2, hpt⟩

theorem buildSongDataGo_length (ts : List TrackItem) :
    ∀ m : SongData, (buildSongDataGo m ts).length ≤ m.length + ts.length := by
  induction ts with
  | nil => intro m; simp [buildSongDataGo]
  | cons t ts ih =>
    intro m
    have h1 := ih (objSet m (jsKey t.id) { name := t.name, popularity := t.popularity })
    have h2 := length_objSet m (jsKey t.id) { name := t.name, popularity := t.popularity }
    simp only [buildSongDataGo, List.length_cons]
    omega

theorem buildSongData_mem (items : List TrackItem) :
    ∀ p ∈ buildSongData items,
      ∃ t ∈ items, p = (jsKey t.id, { name := t.name, popularity := t.popularity }) := by
  intro p hp
  rcases buildSongDataGo_mem items [] p hp with h | h
  · cases h
  · exact h

theorem buildSongData_fresh (items : List TrackItem) :
    ∀ p ∈ buildSongData items, p.2.features = none ∧ p.2.analysis = none := by
  intro p hp
  rcases buildSongData_mem items p hp with ⟨t, _, rfl⟩
  exact ⟨rfl, rfl⟩

theorem buildSongData_length (items : List TrackItem) :
    (buildSongData items).length ≤ items.length := by
  simpa [buildSongData] using buildSongDataGo_length items []

/-! Lemmas about the features stage (attach and issue). -/

theorem attachAndIssue_keyed (Q : String → FeatureObj → Prop) (feats : List FeatureObj) :
    ∀ (m m' : SongData), (attachAndIssue m feats).1 = .ok m' →
    (∀ p ∈ m, ∀ f, p.2.features = some f → Q p.1 f) →
    (∀ f ∈ feats, Q (jsKey f.id) f) →
    ∀ p ∈ m', ∀ f, p.2.features = some f → Q p.1 f := by
  induction feats with
  | nil =>
    intro m m' h h0 _
    simp only [attachAndIssue] at h
    cases h
    exact h0
  | cons f0 fs ih =>
    intro m m' h h0 hf
    simp only [attachAndIssue] at h
    cases hm : objModify m (jsKey f0.id) (fun sr => { sr with features := some f0 }) with
    | error e => rw [hm] at h; simp at h
    | ok m2 =>
      rw [hm] at h
      refine ih m2 m' h ?_ ?_
      · intro p hp f hpf
        rcases objModify_mem _ _ _ _ hm p hp with h2 | ⟨r, _, hpr⟩
        · exact h0 p h2 f hpf
        · subst hpr
          simp only at hpf
          cases hpf
          exact hf f0 (List.mem_cons_self _ _)
      · intro f hf2
        exact hf f (List.mem_cons_of_mem _ hf2)

theorem attachAndIssue_analysis (feats : List FeatureObj) :
    ∀ (m m' : SongData), (attachAndIssue m feats).1 = .ok m' →
    ∀ p ∈ m', ∃ q ∈ m, p.2.analysis = q.2.analysis := by
  induction feats with
  | nil =>
    intro m m' h p hp
    simp only [attachAndIssue] at h
    cases h
    exact ⟨p, hp, rfl⟩
  | cons f0 fs ih =>
    intro m m' h p hp
    simp only [attachAndIssue] at h
    cases hm : objModify m (jsKey f0.id) (fun sr => { sr with features := some f0 }) with
    | error e => rw [hm] at h; simp at h
    | ok m2 =>
      rw [hm] at h
      rcases ih m2 m' h p hp with ⟨q, hq, hpq⟩
      rcases objModify_mem _ _ _ _ hm q hq with h2 | ⟨r, hr, hqr⟩
      · exact ⟨q, h2, hpq⟩
      · exact ⟨(jsKey f0.id, r), hr, by rw [hpq, hqr]⟩

theorem attachAndIssue_get (feats : List FeatureObj) :
    ∀ (m m' : SongData), (attachAndIssue m feats).1 = .ok m' →
    ∀ k r, objGet m k = some r →
    ∃ r', objGet m' k = some r' ∧ r'.analysis = r.analysis ∧
      (r.features.isSome = true → r'.features.isSome = true) := by
  induction feats with
  | nil =>
    intro m m' h k r hk
    simp only [attachAndIssue] at h
    cases h
    exact ⟨r, hk, rfl, fun hh => hh⟩
  | cons f0 fs ih =>
    intro m m' h k r hk
    simp only [attachAndIssue] at h
    cases hm : objModify m (jsKey f0.id) (fun sr => { sr with features := some f0 }) with
    | error e => rw [hm] at h; simp at h
    | ok m2 =>
      rw [hm] at h
      have hg := objModify_get _ _ _ _ hm k
      by_cases hkey : k = jsKey f0.id
      · rw [if_pos hkey, hk] at hg
        rcases ih m2 m' h k { r with features := some f0 } hg with ⟨r', hr', ha, hfs⟩
        exact ⟨r', hr', ha, fun _ => hfs rfl⟩
      · rw [if_neg hkey] at hg
        exact ih m2 m' h k r (hg.trans hk)

theorem attachAndIssue_exists (feats : List FeatureObj) :
    ∀ (m m' : SongData), (attachAndIssue m feats).1 = .ok m' →
    ∀ f ∈ feats, ∃ r, objGet m' (jsKey f.id) = some r ∧ r.features.isSome = true := by
  induction feats with
  | nil => intro m m' _ f hf; cases hf
  | cons f0 fs ih =>
    intro m m' h f hf
    simp only [attachAndIssue] at h
    cases hm : objModify m (jsKey f0.id) (fun sr => { sr with features := some f0 }) with
    | error e => rw [hm] at h; simp at h
    | ok m2 =>
      rw [hm] at h
      rcases List.mem_cons.mp hf with rfl | hf2
      · rcases objModify_src _ _ _ _ hm with ⟨r0, hr0⟩
        have hg := objModify_get _ _ _ _ hm (jsKey f.id)
        rw [if_pos rfl, hr0] at hg
        rcases attachAndIssue_get fs m2 m' h (jsKey f.id) { r0 with features := some f }
          hg with ⟨r', hr', _, hfs⟩
        exact ⟨r', hr', hfs rfl⟩
      · exact ih m2 m' h f hf2

theorem attachAndIssue_missing (feats : List FeatureObj) :
    ∀ (m : SongData) (f : FeatureObj), f ∈ feats → objGet m (jsKey f.id) = none →
    (attachAndIssue m feats).1 = .error .typeError := by
  induction feats with
  | nil => intro m f hf; cases hf
  | cons f0 fs ih =>
    intro m f hf hnone
    rcases List.mem_cons.mp hf with rfl | hf2
    · simp [attachAndIssue, objModify_none _ _ _ hnone]
    · cases hm : objModify m (jsKey f0.id) (fun sr => { sr with features := some f0 }) with
      | error e =>
        have he := objModify_error _ _ _ _ hm
        simp [attachAndIssue, hm, he.1]
      | ok m2 =>
        have hg := objModify_get _ _ _ _ hm (jsKey f.id)
        have hnone2 : objGet m2 (jsKey f.id) = none := by
          rw [hg]
          split
          · rw [hnone]; rfl
          · exact hnone
        have hrec := ih m2 f hf2 hnone2
        simp [attachAndIssue, hm, hrec]

/-! Lemmas about the fan-out merge step. -/

theorem mergeSettled_keyed (P : String → String → Prop) (songs : List Settled) :
    ∀ (m : SongData) (errs : List ErrEntry) (out : SongData × List ErrEntry),
    mergeSettled m errs songs = .ok out →
    (∀ p ∈ m, ∀ d, p.2.analysis = some d → P p.1 d) →
    (∀ r : RespObj, Settled.resp r ∈ songs → r.status = 200 → P (pathKey r.request_path) r.data) →
    ∀ p ∈ out.1, ∀ d, p.2.analysis = some d → P p.1 d := by
  induction songs with
  | nil =>
    intro m errs out h h0 _
    simp only [mergeSettled] at h
    cases h
    exact h0
  | cons s rest ih =>
    intro m errs out h h0 hs
    cases s with
    | resp r =>
      by_cases hr : r.status = 200
      · simp only [mergeSettled, hr] at h
        rw [if_pos (by simp)] at h
        cases hm : objModify m (pathKey r.request_path)
            (fun sr => { sr with analysis := some r.data }) with
        | error e => rw [hm] at h; simp at h
        | ok m2 =>
          rw [hm] at h
          refine ih m2 errs out h ?_ ?_
          · intro p hp d hpd
            rcases objModify_mem _ _ _ _ hm p hp with h2 | ⟨r2, _, hpr⟩
            · exact h0 p h2 d hpd
            · subst hpr
              simp only at hpd
              cases hpd
              exact hs r (List.mem_cons_self _ _) hr
          · intro r2 hr2 h200
            exact hs r2 (List.mem_cons_of_mem _ hr2) h200
      · simp only [mergeSettled] at h
        rw [if_neg (by simp [hr])] at h
        refine ih _ _ out h h0 ?_
        intro r2 hr2 h200
        exact hs r2 (List.mem_cons_of_mem _ hr2) h200
    | fail f =>
      by_cases hf : f.status = 200
      · simp only [mergeSettled] at h
        rw [if_pos (by simp [hf])] at h
        cases h
      · simp only [mergeSettled] at h
        rw [if_neg (by simp [hf])] at h
        refine ih _ _ out h h0 ?_
        intro r2 hr2 h200
        exact hs r2 (List.mem_cons_of_mem _ hr2) h200

theorem mergeSettled_feats (Q : String → FeatureObj → Prop) (songs : List Settled) :
    ∀ (m : SongData) (errs : List ErrEntry) (out : SongData × List ErrEntry),
    mergeSettled m errs songs = .ok out →
    (∀ p ∈ m, ∀ f, p.2.features = some f → Q p.1 f) →
    ∀ p ∈ out.1, ∀ f, p.2.features = some f → Q p.1 f := by
  induction songs with
  | nil =>
    intro m errs out h h0
    simp only [mergeSettled] at h
    cases h
    exact h0
  | cons s rest ih =>
    intro m errs out h h0
    cases s with
    | resp r =>
      by_cases hr : r.status = 200
      · simp only [mergeSettled] at h
        rw [if_pos (by simp [hr])] at h
        cases hm : objModify m (pathKey r.request_path)
            (fun sr => { sr with analysis := some r.data }) with
        | error e => rw [hm] at h; simp at h
        | ok m2 =>
          rw [hm] at h
          refine ih m2 errs out h ?_
          intro p hp f hpf
          rcases objModify_mem _ _ _ _ hm p hp with h2 | ⟨r2, hr2, hpr⟩
          · exact h0 p h2 f hpf
          · subst hpr
            simp only at hpf
            exact h0 (pathKey r.request_path, r2) hr2 f hpf
      · simp only [mergeSettled] at h
        rw [if_neg (by simp [hr])] at h
        exact ih _ _ out h h0
    | fail f =>
      by_cases hf : f.status = 200
      · simp only [mergeSettled] at h
        rw [if_pos (by simp [hf])] at h
        cases h
      · simp only [mergeSettled] at h
        rw [if_neg (by simp [hf])] at h
        exact ih _ _ out h h0

theorem mergeSettled_get (songs : List Settled) :
    ∀ (m : SongData) (errs : List ErrEntry) (out : SongData × List ErrEntry),
    mergeSettled m errs songs = .ok out →
    ∀ k r, objGet m k = some r →
    ∃ r', objGet out.1 k = some r' ∧ r'.features = r.features ∧
      (r.analysis.isSome = true → r'.analysis.isSome = true) := by
  induction songs with
  | nil =>
    intro m errs out h k r hk
    simp only [mergeSettled] at h
    cases h
    exact ⟨r, hk, rfl, fun hh => hh⟩
  | cons s rest ih =>
    intro m errs out h k r hk
    cases s with
    | resp r0 =>
      by_cases hr : r0.status = 200
      · simp only [mergeSettled] at h
        rw [if_pos (by simp [hr])] at h
        cases hm : objModify m (pathKey r0.request_path)
            (fun sr => { sr with analysis := some r0.data }) with
        | error e => rw [hm] at h; simp at h
        | ok m2 =>
          rw [hm] at h
          have hg := objModify_get _ _ _ _ hm k
          by_cases hkey : k = pathKey r0.request_path
          · rw [if_pos hkey, hk] at hg
            rcases ih m2 errs out h k { r with analysis := some r0.data } hg with
              ⟨r', hr', hfs, ha⟩
            exact ⟨r', hr', hfs, fun _ => ha rfl⟩
          · rw [if_neg hkey] at hg
            exact ih m2 errs out h k r (hg.trans hk)
      · simp only [mergeSettled] at h
        rw [if_neg (by simp [hr])] at h
        exact ih _ _ out h k r hk
    | fail f =>
      by_cases hf : f.status = 200
      · simp only [mergeSettled] at h
        rw [if_pos (by simp [hf])] at h
        cases h
      · simp only [mergeSettled] at h
        rw [if_neg (by simp [hf])] at h
        exact ih _ _ out h k r hk

theorem mergeSettled_exists (songs : List Settled) :
    ∀ (m : SongData) (errs : List ErrEntry) (out : SongData × List ErrEntry),
    mergeSettled m errs songs = .ok out →
    ∀ r : RespObj, Settled.resp r ∈ songs → r.status = 200 →
    ∃ sr, objGet out.1 (pathKey r.request_path) = some sr ∧ sr.analysis.isSome = true := by
  induction songs with
  | nil => intro m errs out _ r hr; cases hr
  | cons s rest ih =>
    intro m errs out h r hr h200
    rcases List.mem_cons.mp hr with heq | hr2
    · cases heq
      simp only [mergeSettled] at h
      rw [if_pos (by simp [h200])] at h
      cases hm : objModify m (pathKey r.request_path)
          (fun sr => { sr with analysis := some r.data }) with
      | error e => rw [hm] at h; simp at h
      | ok m2 =>
        rw [hm] at h
        rcases objModify_src _ _ _ _ hm with ⟨r0, hr0⟩
        have hg := objModify_get _ _ _ _ hm (pathKey r.request_path)
        rw [if_pos rfl, hr0] at hg
        rcases mergeSettled_get rest m2 errs out h (pathKey r.request_path)
          { r0 with analysis := some r.data } hg with ⟨r', hr', _, ha⟩
        exact ⟨r', hr', ha rfl⟩
    · cases s with
      | resp r0 =>
        by_cases hs : r0.status = 200
        · simp only [mergeSettled] at h
          rw [if_pos (by simp [hs])] at h
          cases hm : objModify m (pathKey r0.request_path)
              (fun sr => { sr with analysis := some r0.data }) with
          | error e => rw [hm] at h; simp at h
          | ok m2 => rw [hm] at h; exact ih m2 errs out h r hr2 h200
        · simp only [mergeSettled] at h
          rw [if_neg (by simp [hs])] at h
          exact ih _ _ out h r hr2 h200
      | fail f =>
        by_cases hf : f.status = 200
        · simp only [mergeSettled] at h
          rw [if_pos (by simp [hf])] at h
          cases h
        · simp only [mergeSettled] at h
          rw [if_neg (by simp [hf])] at h
          exact ih _ _ out h r hr2 h200

theorem mergeSettled_errs_mono (songs : List Settled) :
    ∀ (m : SongData) (errs : List ErrEntry) (out : SongData × List ErrEntry),
    mergeSettled m errs songs = .ok out →
    ∀ x ∈ errs, x ∈ out.2 := by
  induction songs with
  | nil =>
    intro m errs out h x hx
    simp only [mergeSettled] at h
    cases h
    exact hx
  | cons s rest ih =>
    intro m errs out h x hx
    cases s with
    | resp r =>
      by_cases hr : r.status = 200
      · simp only [mergeSettled] at h
        rw [if_pos (by simp [hr])] at h
        cases hm : objModify m (pathKey r.request_path)
            (fun sr => { sr with analysis := some r.data }) with
        | error e => rw [hm] at h; simp at h
        | ok m2 => rw [hm] at h; exact ih m2 errs out h x hx
      · simp only [mergeSettled] at h
        rw [if_neg (by simp [hr])] at h
        exact ih _ _ out h x (List.mem_append_left _ hx)
    | fail f =>
      by_cases hf : f.status = 200
      · simp only [mergeSettled] at h
        rw [if_pos (by simp [hf])] at h
        cases h
      · simp only [mergeSettled] at h
        rw [if_neg (by simp [hf])] at h
        exact ih _ _ out h x (List.mem_append_left _ hx)

theorem mergeSettled_fail_mem (songs : List Settled) :
    ∀ (m : SongData) (errs : List ErrEntry) (out : SongData × List ErrEntry),
    mergeSettled m errs songs = .ok out →
    ∀ f : FailureRecord, Settled.fail f ∈ songs → f.status ≠ 200 →
    ErrEntry.mk f.status (some f.url) f.timeout ∈ out.2 := by
  induction songs with
  | nil => intro m errs out _ f hf; cases hf
  | cons s rest ih =>
    intro m errs out h f hf h200
    rcases List.mem_cons.mp hf with heq | hf2
    · cases heq
      simp only [mergeSettled] at h
      rw [if_neg (by simp [h200])] at h
      exact mergeSettled_errs_mono rest _ _ out h _ (List.mem_append_right _ (List.mem_singleton.mpr rfl))
    · cases s with
      | resp r0 =>
        by_cases hs : r0.status = 200
        · simp only [mergeSettled] at h
          rw [if_pos (by simp [hs])] at h
          cases hm : objModify m (pathKey r0.request_path)
              (fun sr => { sr with analysis := some r0.data }) with
          | error e => rw [hm] at h; simp at h
          | ok m2 => rw [hm] at h; exact ih m2 errs out h f hf2 h200
        · simp only [mergeSettled] at h
          rw [if_neg (by simp [hs])] at h
          exact ih _ _ out h f hf2 h200
      | fail f0 =>
        by_cases hf0 : f0.status = 200
        · simp only [mergeSettled] at h
          rw [if_pos (by simp [hf0])] at h
          cases h
        · simp only [mergeSettled] at h
          rw [if_neg (by simp [hf0])] at h
          exact ih _ _ out h f hf2 h200

theorem mergeSettled_pres (songs : List Settled) :
    ∀ (m : SongData) (errs : List ErrEntry) (out : SongData × List ErrEntry),
    mergeSettled m errs songs = .ok out →
    ∀ k r, objGet m k = some r →
    (∀ s : RespObj, Settled.resp s ∈ songs → s.status = 200 → pathKey s.request_path ≠ k) →
    objGet out.1 k = some r := by
  induction songs with
  | nil =>
    intro m errs out h k r hk _
    simp only [mergeSettled] at h
    cases h
    exact hk
  | cons s rest ih =>
    intro m errs out h k r hk hno
    cases s with
    | resp r0 =>
      by_cases hr : r0.status = 200
      · simp only [mergeSettled] at h
        rw [if_pos (by simp [hr])] at h
        cases hm : objModify m (pathKey r0.request_path)
            (fun sr => { sr with analysis := some r0.data }) with
        | error e => rw [hm] at h; simp at h
        | ok m2 =>
          rw [hm] at h
          have hg := objModify_get _ _ _ _ hm k
          have hne : ¬ k = pathKey r0.request_path :=
            fun hh => hno r0 (List.mem_cons_self _ _) hr hh.symm
          rw [if_neg hne] at hg
          exact ih m2 errs out h k r (hg.trans hk)
            (fun s hs h200 => hno s (List.mem_cons_of_mem _ hs) h200)
      · simp only [mergeSettled] at h
        rw [if_neg (by simp [hr])] at h
        exact ih _ _ out h k r hk (fun s hs h200 => hno s (List.mem_cons_of_mem _ hs) h200)
    | fail f =>
      by_cases hf : f.status = 200
      · simp only [mergeSettled] at h
        rw [if_pos (by simp [hf])] at h
        cases h
      · simp only [mergeSettled] at h
        rw [if_neg (by simp [hf])] at h
        exact ih _ _ out h k r hk (fun s hs h200 => hno s (List.mem_cons_of_mem _ hs) h200)

/-! Lemmas about the retry merge step. -/

theorem mergeRetries_count (rs : List RetrySettled) :
    ∀ (m : SongData) (i : Nat) (out : SongData × Nat),
    mergeRetries m i rs = .ok out →
    out.2 = i + (rs.filter retryFails).length := by
  induction rs with
  | nil =>
    intro m i out h
    simp only [mergeRetries] at h
    cases h
    simp
  | cons s rest ih =>
    intro m i out h
    cases s with
    | emptyObj =>
      simp only [mergeRetries] at h
      have := ih _ _ out h
      simp [List.filter_cons, retryFails]
      omega
    | resp r =>
      by_cases hr : r.status = 200
      · simp only [mergeRetries, hr] at h
        rw [if_pos (by simp)] at h
        cases hm : objModify m (pathKey r.request_path)
            (fun sr => { sr with analysis := some r.data }) with
        | error e => rw [hm] at h; simp at h
        | ok m2 =>
          rw [hm] at h
          have := ih _ _ out h
          simp only [List.filter_cons, retryFails]
          rw [if_neg (by simp [hr])]
          omega
      · simp only [mergeRetries] at h
        rw [if_neg (by simp [hr])] at h
        have := ih _ _ out h
        simp only [List.filter_cons, retryFails]
        rw [if_pos (by simp [hr])]
        simp only [List.length_cons]
        omega

theorem mergeRetries_keyed (P : String → String → Prop) (rs : List RetrySettled) :
    ∀ (m : SongData) (i : Nat) (out : SongData × Nat),
    mergeRetries m i rs = .ok out →
    (∀ p ∈ m, ∀ d, p.2.analysis = some d → P p.1 d) →
    (∀ r : RespObj, RetrySettled.resp r ∈ rs → r.status = 200 → P (pathKey r.request_path) r.data) →
    ∀ p ∈ out.1, ∀ d, p.2.analysis = some d → P p.1 d := by
  induction rs with
  | nil =>
    intro m i out h h0 _
    simp only [mergeRetries] at h
    cases h
    exact h0
  | cons s rest ih =>
    intro m i out h h0 hs
    cases s with
    | emptyObj =>
      simp only [mergeRetries] at h
      exact ih _ _ out h h0 (fun r hr h200 => hs r (List.mem_cons_of_mem _ hr) h200)
    | resp r =>
      by_cases hr : r.status = 200
      · simp only [mergeRetries, hr] at h
        rw [if_pos (by simp)] at h
        cases hm : objModify m (pathKey r.request_path)
            (fun sr => { sr with analysis := some r.data }) with
        | error e => rw [hm] at h; simp at h
        | ok m2 =>
          rw [hm] at h
          refine ih m2 _ out h ?_ ?_
          · intro p hp d hpd
            rcases objModify_mem _ _ _ _ hm p hp with h2 | ⟨r2, _, hpr⟩
            · exact h0 p h2 d hpd
            · subst hpr
              simp only at hpd
              cases hpd
              exact hs r (List.mem_cons_self _ _) hr
          · intro r2 hr2 h200
            exact hs r2 (List.mem_cons_of_mem _ hr2) h200
      · simp only [mergeRetries] at h
        rw [if_neg (by simp [hr])] at h
        exact ih _ _ out h h0 (fun r2 hr2 h200 => hs r2 (List.mem_cons_of_mem _ hr2) h200)

theorem mergeRetries_feats (Q : String → FeatureObj → Prop) (rs : List RetrySettled) :
    ∀ (m : SongData) (i : Nat) (out : SongData × Nat),
    mergeRetries m i rs = .ok out →
    (∀ p ∈ m, ∀ f, p.2.features = some f → Q p.1 f) →
    ∀ p ∈ out.1, ∀ f, p.2.features = some f → Q p.1 f := by
  induction rs with
  | nil =>
    intro m i out h h0
    simp only [mergeRetries] at h
    cases h
    exact h0
  | cons s rest ih =>
    intro m i out h h0
    cases s with
    | emptyObj =>
      simp only [mergeRetries] at h
      exact ih _ _ out h h0
    | resp r =>
      by_cases hr : r.status = 200
      · simp only [mergeRetries, hr] at h
        rw [if_pos (by simp)] at h
        cases hm : objModify m (pathKey r.request_path)
            (fun sr => { sr with analysis := some r.data }) with
        | error e => rw [hm] at h; simp at h
        | ok m2 =>
          rw [hm] at h
          refine ih m2 _ out h ?_
          intro p hp f hpf
          rcases objModify_mem _ _ _ _ hm p hp with h2 | ⟨r2, hr2, hpr⟩
          · exact h0 p h2 f hpf
          · subst hpr
            simp only at hpf
            exact h0 (pathKey r.request_path, r2) hr2 f hpf
      · simp only [mergeRetries] at h
        rw [if_neg (by simp [hr])] at h
        exact ih _ _ out h h0

theorem mergeRetries_get (rs : List RetrySettled) :
    ∀ (m : SongData) (i : Nat) (out : SongData × Nat),
    mergeRetries m i rs = .ok out →
    ∀ k r, objGet m k = some r →
    ∃ r', objGet out.1 k = some r' ∧ r'.features = r.features ∧
      (r.analysis.isSome = true → r'.analysis.isSome = true) := by
  induction rs with
  | nil =>
    intro m i out h k r hk
    simp only [mergeRetries] at h
    cases h
    exact ⟨r, hk, rfl, fun hh => hh⟩
  | cons s rest ih =>
    intro m i out h k r hk
    cases s with
    | emptyObj =>
      simp only [mergeRetries] at h
      exact ih _ _ out h k r hk
    | resp r0 =>
      by_cases hr : r0.status = 200
      · simp only [mergeRetries, hr] at h
        rw [if_pos (by simp)] at h
        cases hm : objModify m (pathKey r0.request_path)
            (fun sr => { sr with analysis := some r0.data }) with
        | error e => rw [hm] at h; simp at h
        | ok m2 =>
          rw [hm] at h
          have hg := objModify_get _ _ _ _ hm k
          by_cases hkey : k = pathKey r0.request_path
          · rw [if_pos hkey, hk] at hg
            rcases ih m2 _ out h k { r with analysis := some r0.data } hg with
              ⟨r', hr', hfs, ha⟩
            exact ⟨r', hr', hfs, fun _ => ha rfl⟩
          · rw [if_neg hkey] at hg
            exact ih m2 _ out h k r (hg.trans hk)
      · simp only [mergeRetries] at h
        rw [if_neg (by simp [hr])] at h
        exact ih _ _ out h k r hk

theorem mergeRetries_exists (rs : List RetrySettled) :
    ∀ (m : SongData) (i : Nat) (out : SongData × Nat),
    mergeRetries m i rs = .ok out →
    ∀ r : RespObj, RetrySettled.resp r ∈ rs → r.status = 200 →
    ∃ sr, objGet out.1 (pathKey r.request_path) = some sr ∧ sr.analysis.isSome = true := by
  induction rs with
  | nil => intro m i out _ r hr; cases hr
  | cons s rest ih =>
    intro m i out h r hr h200
    rcases List.mem_cons.mp hr with heq | hr2
    · cases heq
      simp only [mergeRetries, h200] at h
      rw [if_pos (by simp)] at h
      cases hm : objModify m (pathKey r.request_path)
          (fun sr => { sr with analysis := some r.data }) with
      | error e => rw [hm] at h; simp at h
      | ok m2 =>
        rw [hm] at h
        rcases objModify_src _ _ _ _ hm with ⟨r0, hr0⟩
        have hg := objModify_get _ _ _ _ hm (pathKey r.request_path)
        rw [if_pos rfl, hr0] at hg
        rcases mergeRetries_get rest m2 _ out h (pathKey r.request_path)
          { r0 with analysis := some r.data } hg with ⟨r', hr', _, ha⟩
        exact ⟨r', hr', ha rfl⟩
    · cases s with
      | emptyObj =>
        simp only [mergeRetries] at h
        exact ih _ _ out h r hr2 h200
      | resp r0 =>
        by_cases hs : r0.status = 200
        · simp only [mergeRetries, hs] at h
          rw [if_pos (by simp)] at h
          cases hm : objModify m (pathKey r0.request_path)
              (fun sr => { sr with analysis := some r0.data }) with
          | error e => rw [hm] at h; simp at h
          | ok m2 => rw [hm] at h; exact ih m2 _ out h r hr2 h200
        · simp only [mergeRetries] at h
          rw [if_neg (by simp [hs])] at h
          exact ih _ _ out h r hr2 h200

theorem mergeRetries_pres (rs : List RetrySettled) :
    ∀ (m : SongData) (i : Nat) (out : SongData × Nat),
    mergeRetries m i rs = .ok out →
    ∀ k r, objGet m k = some r →
    (∀ s : RespObj, RetrySettled.resp s ∈ rs → s.status = 200 → pathKey s.request_path ≠ k) →
    objGet out.1 k = some r := by
  induction rs with
  | nil =>
    intro m i out h k r hk _
    simp only [mergeRetries] at h
    cases h
    exact hk
  | cons s rest ih =>
    intro m i out h k r hk hno
    cases s with
    | emptyObj =>
      simp only [mergeRetries] at h
      exact ih _ _ out h k r hk (fun s2 hs h200 => hno s2 (List.mem_cons_of_mem _ hs) h200)
    | resp r0 =>
      by_cases hr : r0.status = 200
      · simp only [mergeRetries, hr] at h
        rw [if_pos (by simp)] at h
        cases hm : objModify m (pathKey r0.request_path)
            (fun sr => { sr with analysis := some r0.data }) with
        | error e => rw [hm] at h; simp at h
        | ok m2 =>
          rw [hm] at h
          have hg := objModify_get _ _ _ _ hm k
          have hne : ¬ k = pathKey r0.request_path :=
            fun hh => hno r0 (List.mem_cons_self _ _) hr hh.symm
          rw [if_neg hne] at hg
          exact ih m2 _ out h k r (hg.trans hk)
            (fun s2 hs h200 => hno s2 (List.mem_cons_of_mem _ hs) h200)
      · simp only [mergeRetries] at h
        rw [if_neg (by simp [hr])] at h
        exact ih _ _ out h k r hk (fun s2 hs h200 => hno s2 (List.mem_cons_of_mem _ hs) h200)

/-! Lemma about the fan-out await. -/

theorem promiseAll_map_ok (os : List (Except AxiosError RespObj))
    (h : ∀ o ∈ os, hasResponse o = true) :
    promiseAll (os.map settleAnalysis) = .ok (os.map settleVal) := by
  induction os with
  | nil => rfl
  | cons o os ih =>
    have h1 : settleAnalysis o = .ok (settleVal o) := by
      cases o with
      | ok r => rfl
      | error e =>
        have h2 := h _ (List.mem_cons_self _ _)
        simp only [hasResponse] at h2
        cases he : e.response with
        | none => rw [he] at h2; simp at h2
        | some r =>
          simp only [settleAnalysis, settleVal, analysisCatch, he, Except.map]
    have h2 := ih (fun o2 ho2 => h o2 (List.mem_cons_of_mem _ ho2))
    simp [promiseAll, h1, h2]

/-! Claim theorems. -/

/-- C3 (amended): the computed back-off is taken from the first failure
with status 429 as `(timeout + 2) * 1000` ms, where an unknown
`retry-after` (`NaN`) propagates to a `NaN` timeout rather than a
2-second delay, and the timer coerces that `NaN` to 0 ms; with no 429
among the failures the timeout is 0. -/
theorem c3_backoff_delay (errs : List ErrEntry) :
    (∀ e : ErrEntry, errs.find? (fun x => x.status == 429) = some e →
       computeTimeout errs = e.timeout.map (fun t => (t + 2) * 1000)) ∧
    (errs.find? (fun x => x.status == 429) = none → computeTimeout errs = some 0) ∧
    (computeTimeout errs = none → jsDelay (computeTimeout errs) = 0) := by
  refine ⟨?_, ?_, fun h => by rw [h]; rfl⟩
  · induction errs with
    | nil => intro e he; simp at he
    | cons e0 rest ih =>
      intro e he
      by_cases h : (e0.status == 429) = true
      · simp only [List.find?, h] at he
        cases he
        simp only [computeTimeout, h, if_true]
      · simp only [List.find?, Bool.not_eq_true] at he
        rw [Bool.not_eq_true] at h
        rw [h] at he
        simp only [computeTimeout, h, Bool.false_eq_true, if_false]
        exact ih e he
  · induction errs with
    | nil => intro _; rfl
    | cons e0 rest ih =>
      intro he
      by_cases h : (e0.status == 429) = true
      · simp [List.find?, h] at he
      · rw [Bool.not_eq_true] at h
        simp only [List.find?, h] at he
        simp only [computeTimeout, h, Bool.false_eq_true, if_false]
        exact ih he

/-- C3 witness: for a 500, a 429 with `retry-after` 5, and a 500, the
computed timeout is exactly 7000 ms. -/
theorem c3_backoff_delay_witness : computeTimeout c3errs = some 7000 := by
  have h := (c3_backoff_delay c3errs).1 ⟨429, some "u2", some 5⟩ (by decide)
  simpa using h

/-- C3 counterexample: a single 429 with unknown `retry-after` gives a
`NaN` timeout, which the timer treats as 0 ms: not the 2000 ms delay the
claim states. -/
theorem c3_unknown_retry_after_nan :
    computeTimeout [ErrEntry.mk 429 (some "u") none] = none ∧
    computeTimeout [ErrEntry.mk 429 (some "u") none] ≠ some 2000 ∧
    jsDelay (computeTimeout [ErrEntry.mk 429 (some "u") none]) = 0 := by
  refine ⟨rfl, ?_, rfl⟩
  intro h
  cases h

/-- C5: the source's `sleep` passes `resolve()` (an immediate invocation)
to `setTimeout` instead of the callback `resolve`, so a `sleep(7000)`
started at time 0 resolves at time 0 and the retry requests are issued
without any wait; with the callback style it would resolve at 7000. -/
theorem c5_sleep_resolves_immediately :
    sleep 0 7000 = 0 ∧ promiseResolveTime 0 7000 TimerArgStyle.passCallback = 7000 :=
  ⟨rfl, rfl⟩

/-- C7: when the batched features request is rejected with a response, the
pipeline fails with that upstream error and its trace shows that no
analysis request, sleep, or retry was ever issued. -/
theorem c7_features_abort (env : Env) (pl : Playlists) (item : PlaylistItem)
    (rest : List PlaylistItem) (items : List TrackItem) (e : AxiosError) (r : ErrResp)
    (hg : env.genre.isStr = true)
    (hp : env.playlistResp = .ok pl)
    (hi : pl.items = item :: rest)
    (ht : env.tracklistResp = .ok items)
    (hf : env.featuresResp = .error e)
    (_hr : e.response = some r) :
    getTop100AudioData env =
      (.error (.axios e),
       { playlistCalled := true
         tracklistCalled := true
         tracklistUrl := some item.tracks_href
         featuresCalled := true
         featuresUrl := some (buildFeatureUrl items) }) := by
  simp [getTop100AudioData, hg, hp, hi, ht, hf]

/-- C7 witness: the concrete environment `envC7` aborts with the 503
features rejection and an empty analysis trace. -/
theorem c7_features_abort_witness :
    getTop100AudioData envC7 =
      (.error (.axios ⟨some ⟨503, none⟩, "https://api.spotify.com/v1/audio-features/?ids=a"⟩),
       { playlistCalled := true
         tracklistCalled := true
         tracklistUrl := some "https://tl"
         featuresCalled := true
         featuresUrl := some (buildFeatureUrl [⟨some "a", some "A", some 1⟩]) }) :=
  c7_features_abort envC7 ⟨[⟨"https://tl"⟩]⟩ ⟨"https://tl"⟩ [] [⟨some "a", some "A", some 1⟩]
    ⟨some ⟨503, none⟩, "https://api.spotify.com/v1/audio-features/?ids=a"⟩ ⟨503, none⟩
    rfl rfl rfl rfl rfl rfl

/-- C8: when the fan-out merge collects zero errors, the phase returns the
map exactly as the fan-out populated it, with no sleep and no retry
request in the trace. -/
theorem c8_empty_failure_fast_path (m0 m1 m2 : SongData) (feats : List FeatureObj)
    (ao ro : Nat → Except AxiosError RespObj) (urls : List String) (songs : List Settled)
    (h1 : attachAndIssue m0 feats = (.ok m1, urls))
    (h2 : promiseAll ((List.range urls.length).map (fun j => settleAnalysis (ao j))) = .ok songs)
    (h3 : mergeSettled m1 [] songs = .ok (m2, [])) :
    fanoutRetryPhase m0 feats ao ro = (.ok m2, { analysisUrls := urls }) := by
  simp [fanoutRetryPhase, h1, h2, h3]

/-- C8 witness: with one track whose analysis request succeeds, the phase
returns the enriched map unchanged, no sleeps, no retries. -/
theorem c8_empty_failure_fast_path_witness :
    fanoutRetryPhase c6m0 c6feats c8ao c6ro = (.ok c8m2, { analysisUrls := [urlA] }) :=
  c8_empty_failure_fast_path c6m0 c6m1 c8m2 c6feats c8ao c6ro [urlA] c8songs rfl rfl rfl

/-- C9 (amended): the tracklist stage produces at most one record per
response item, and it copies name and popularity verbatim, so when every
item of the upstream response has non-null fields, every produced record
does too; neither a 100-record cap nor non-nullness is enforced by the
stage itself. -/
theorem c9_tracklist_bounds (items : List TrackItem)
    (h : ∀ t ∈ items, t.name ≠ none ∧ t.popularity ≠ none) :
    (buildSongData items).length ≤ items.length ∧
    ∀ p ∈ buildSongData items, p.2.name ≠ none ∧ p.2.popularity ≠ none := by
  refine ⟨buildSongData_length items, fun p hp => ?_⟩
  rcases buildSongData_mem items p hp with ⟨t, ht, rfl⟩
  exact ⟨(h t ht).1, (h t ht).2⟩

/-- C9 witness: a one-item listing with non-null fields gives at most one
record with non-null fields. -/
theorem c9_tracklist_bounds_witness :
    (buildSongData c9ok).length ≤ c9ok.length ∧
    ∀ p ∈ buildSongData c9ok, p.2.name ≠ none ∧ p.2.popularity ≠ none :=
  c9_tracklist_bounds c9ok (by decide)

/-- C9 counterexample: an upstream response of 101 items with null names
and popularities produces 101 records with null fields, violating both the
100-record bound and non-nullness the claim states for every upstream
response. -/
theorem c9_unvalidated_response :
    ¬ ((buildSongData c9items).length ≤ 100 ∧
       ∀ p ∈ buildSongData c9items, p.2.name ≠ none ∧ p.2.popularity ≠ none) := by
  decide

/-- C4 (amended): a non-string genre is rejected by the `typeof` guard
before any upstream request (the trace stays empty), and a category whose
playlist listing is empty fails with the `TypeError` from indexing
`items[0]` (the spec's InvalidArgument bucket) right after the playlist
request; an empty-string genre, however, passes the guard. -/
theorem c4_argument_validation (env : Env) (pl : Playlists) :
    (env.genre.isStr = false →
       getTop100AudioData env =
         (.error (.errorMsg "parameter `genre` must be of type string"), {})) ∧
    (env.genre.isStr = true → env.playlistResp = .ok pl → pl.items = [] →
       getTop100AudioData env = (.error .typeError, { playlistCalled := true })) := by
  constructor
  · intro h
    simp [getTop100AudioData, h]
  · intro h hp hi
    simp [getTop100AudioData, h, hp, hi]

/-- C4 witness: a numeric genre is rejected with the guard error and an
empty trace, and an empty playlist listing yields the indexing
`TypeError`. -/
theorem c4_argument_validation_witness :
    getTop100AudioData envC4num =
      (.error (.errorMsg "parameter `genre` must be of type string"), {}) ∧
    getTop100AudioData envC4zero = (.error .typeError, { playlistCalled := true }) :=
  ⟨(c4_argument_validation envC4num ⟨[]⟩).1 rfl,
   (c4_argument_validation envC4zero ⟨[]⟩).2 rfl rfl rfl⟩

/-- C4 counterexample: the empty string is a string, so `typeof` lets it
through: the playlist request is issued and the failure surfaced is the
upstream 404, not the InvalidArgument the claim requires for every
category that is not a non-empty string. -/
theorem c4_empty_string_not_rejected :
    (getTop100AudioData envC4empty).2.playlistCalled = true ∧
    (getTop100AudioData envC4empty).1 =
      .error (.axios ⟨some ⟨404, none⟩, "https://api.spotify.com/v1/browse/categories//playlists"⟩) :=
  ⟨rfl, rfl⟩

/-- C10: if the features response contains an object whose id (after
JavaScript key coercion, so also a null id) is not a key of the map built
from the track listing, the attach loop dereferences `undefined`, throws a
`TypeError`, and the whole phase rejects with it: no best-effort result. -/
theorem c10_unknown_feature_id_rejects (m : SongData) (feats : List FeatureObj) (f : FeatureObj)
    (hf : f ∈ feats) (hnone : objGet m (jsKey f.id) = none) :
    (attachAndIssue m feats).1 = .error .typeError ∧
    ∀ ao ro : Nat → Except AxiosError RespObj,
      (fanoutRetryPhase m feats ao ro).1 = .error .typeError := by
  have h := attachAndIssue_missing feats m f hf hnone
  refine ⟨h, fun ao ro => ?_⟩
  rcases h2 : attachAndIssue m feats with ⟨res, urls⟩
  rw [h2] at h
  simp only at h
  subst h
  simp [fanoutRetryPhase, h2]

/-- C10 witness: a feature object with null id addresses the key
`"null"`, absent from a map holding only track `a`; the phase rejects
with the `TypeError`. -/
theorem c10_unknown_feature_id_rejects_witness :
    (attachAndIssue c10m c10feats).1 = .error .typeError ∧
    (fanoutRetryPhase c10m c10feats c10ao c10ao).1 = .error .typeError :=
  ⟨(c10_unknown_feature_id_rejects c10m c10feats ⟨none, "u"⟩ (by decide) (by decide)).1,
   (c10_unknown_feature_id_rejects c10m c10feats ⟨none, "u"⟩ (by decide) (by decide)).2
     c10ao c10ao⟩

/-- C1 (amended): when every failed analysis request still carries an HTTP
response, the fan-out settles without raising: each rejection is converted
by the catch handler into its failure object (status, originating URL,
`retry-after` seconds or `NaN`), and the merge step hands every non-200
failure object to the retry pass's error list.  (A network-level failure
with no response, by contrast, rejects the whole run: see the
counterexample.) -/
theorem c1_failures_collected (outcomes : List (Except AxiosError RespObj)) (m : SongData)
    (hresp : ∀ o ∈ outcomes, hasResponse o = true) :
    promiseAll (outcomes.map settleAnalysis) = .ok (outcomes.map settleVal) ∧
    (∀ (e : AxiosError) (r : ErrResp), Except.error e ∈ outcomes → e.response = some r →
       Settled.fail ⟨r.status, e.config_url, retryAfterVal r.retryAfter⟩ ∈
         outcomes.map settleVal) ∧
    (∀ out : SongData × List ErrEntry,
       mergeSettled m [] (outcomes.map settleVal) = .ok out →
       ∀ f : FailureRecord, Settled.fail f ∈ outcomes.map settleVal → f.status ≠ 200 →
         ErrEntry.mk f.status (some f.url) f.timeout ∈ out.2) := by
  refine ⟨promiseAll_map_ok outcomes hresp, ?_, ?_⟩
  · intro e r he hr
    have hval : settleVal (.error e) = .fail ⟨r.status, e.config_url, retryAfterVal r.retryAfter⟩ := by
      simp [settleVal, hr]
    exact hval ▸ List.mem_map_of_mem settleVal he
  · intro out hmerge f hf h200
    exact mergeSettled_fail_mem _ _ _ _ hmerge f hf h200

/-- C1 witness: a 429 rejection with a response plus a 200 response settle
to the failure object and the response, and the 429's failure object is
handed to the retry error list by the merge. -/
theorem c1_failures_collected_witness :
    promiseAll (c1outcomes.map settleAnalysis) = .ok (c1outcomes.map settleVal) ∧
    (∀ (e : AxiosError) (r : ErrResp), Except.error e ∈ c1outcomes → e.response = some r →
       Settled.fail ⟨r.status, e.config_url, retryAfterVal r.retryAfter⟩ ∈
         c1outcomes.map settleVal) ∧
    (∀ out : SongData × List ErrEntry,
       mergeSettled c1m [] (c1outcomes.map settleVal) = .ok out →
       ∀ f : FailureRecord, Settled.fail f ∈ c1outcomes.map settleVal → f.status ≠ 200 →
         ErrEntry.mk f.status (some f.url) f.timeout ∈ out.2) :=
  c1_failures_collected c1outcomes c1m (by decide)

/-- C1 counterexample: a network-level analysis failure with no HTTP
response makes the catch handler itself throw (`err.response.status` on
`undefined`), so the whole operation rejects instead of collecting a
failure record. -/
theorem c1_network_failure_rejects :
    (getTop100AudioData envC1).1 = .error .typeError := rfl

/-- C6: when the error list is non-empty, the phase resolves successfully
with the merged map and reports as residual exactly the number of retries
that did not come back 200 (including swallowed network failures), and a
record that had no analysis and receives no 200-keyed retry keeps no
analysis in the final map. -/
theorem c6_residual_accounting (m0 m1 m2 m3 : SongData) (feats : List FeatureObj)
    (ao ro : Nat → Except AxiosError RespObj) (urls : List String) (songs : List Settled)
    (errs : List ErrEntry) (retries : List RetrySettled) (i : Nat)
    (h1 : attachAndIssue m0 feats = (.ok m1, urls))
    (h2 : promiseAll ((List.range urls.length).map (fun j => settleAnalysis (ao j))) = .ok songs)
    (h3 : mergeSettled m1 [] songs = .ok (m2, errs))
    (hret : retries = (List.range errs.length).map (fun j => settleRetry (ro j)))
    (hne : errs ≠ [])
    (h4 : mergeRetries m2 0 retries = .ok (m3, i)) :
    fanoutRetryPhase m0 feats ao ro =
      (.ok m3,
       { analysisUrls := urls
         sleeps := [computeTimeout errs]
         retryUrls := errs.map (fun e => e.url)
         residualReported := some i }) ∧
    i = (retries.filter retryFails).length ∧
    (∀ k sr, objGet m2 k = some sr → sr.analysis = none →
       (∀ s : RespObj, RetrySettled.resp s ∈ retries → s.status = 200 →
          pathKey s.request_path ≠ k) →
       objGet m3 k = some sr) := by
  subst hret
  refine ⟨?_, ?_, ?_⟩
  · have hlen : errs.length > 0 := by
      cases errs with
      | nil => exact absurd rfl hne
      | cons e es => simp
    simp only [fanoutRetryPhase, h1, h2, h3]
    rw [if_pos hlen, h4]
  · simpa using mergeRetries_count _ m2 0 (m3, i) h4
  · intro k sr hk _ hno
    exact mergeRetries_pres _ m2 0 (m3, i) h4 k sr hk hno

/-- C6 witness: one track whose analysis fails with a 500 and whose retry
fails at network level: the phase resolves, reports residual 1, and the
track keeps no analysis. -/
theorem c6_residual_accounting_witness :
    fanoutRetryPhase c6m0 c6feats c6ao c6ro =
      (.ok c6m1,
       { analysisUrls := [urlA]
         sleeps := [computeTimeout c6errs]
         retryUrls := c6errs.map (fun e => e.url)
         residualReported := some 1 }) ∧
    1 = (c6retries.filter retryFails).length ∧
    (∀ k sr, objGet c6m1 k = some sr → sr.analysis = none →
       (∀ s : RespObj, RetrySettled.resp s ∈ c6retries → s.status = 200 →
          pathKey s.request_path ≠ k) →
       objGet c6m1 k = some sr) :=
  c6_residual_accounting c6m0 c6m1 c6m1 c6m1 c6feats c6ao c6ro [urlA]
    [.fail ⟨500, urlA, none⟩] c6errs c6retries 1 rfl rfl rfl rfl (by decide) rfl

/-- C2: after the fan-out (and retry) merges, every attached feature sits
at the record whose key is the feature's own id, every attached analysis
payload comes from a 200 response whose own request path names that
record's key (from either pass), every feature of the response is attached
under its id, and every 200 response of either pass left an analysis at
its own path id, independent of the order of the response arrays. -/
theorem c2_id_keyed_attachment (m m1 m2 m3 : SongData) (feats : List FeatureObj)
    (songs : List Settled) (errs : List ErrEntry) (retries : List RetrySettled) (i : Nat)
    (h0 : ∀ p ∈ m, p.2.features = none ∧ p.2.analysis = none)
    (h1 : (attachAndIssue m feats).1 = .ok m1)
    (h2 : mergeSettled m1 [] songs = .ok (m2, errs))
    (h3 : mergeRetries m2 0 retries = .ok (m3, i)) :
    (∀ p ∈ m3, ∀ f : FeatureObj, p.2.features = some f → jsKey f.id = p.1 ∧ f ∈ feats) ∧
    (∀ p ∈ m3, ∀ d : String, p.2.analysis = some d →
       (∃ s : RespObj, Settled.resp s ∈ songs ∧ s.status = 200 ∧
          pathKey s.request_path = p.1 ∧ s.data = d) ∨
       (∃ s : RespObj, RetrySettled.resp s ∈ retries ∧ s.status = 200 ∧
          pathKey s.request_path = p.1 ∧ s.data = d)) ∧
    (∀ f ∈ feats, ∃ r, objGet m3 (jsKey f.id) = some r ∧ r.features.isSome = true) ∧
    (∀ s : RespObj, Settled.resp s ∈ songs → s.status = 200 →
       ∃ r, objGet m3 (pathKey s.request_path) = some r ∧ r.analysis.isSome = true) ∧
    (∀ s : RespObj, RetrySettled.resp s ∈ retries → s.status = 200 →
       ∃ r, objGet m3 (pathKey s.request_path) = some r ∧ r.analysis.isSome = true) := by
  have hfeat1 : ∀ p ∈ m1, ∀ f, p.2.features = some f → jsKey f.id = p.1 ∧ f ∈ feats := by
    refine attachAndIssue_keyed (fun k f => jsKey f.id = k ∧ f ∈ feats) feats m m1 h1 ?_ ?_
    · intro p hp f hpf
      rw [(h0 p hp).1] at hpf
      cases hpf
    · intro f hf
      exact ⟨rfl, hf⟩
  have hfeat2 := mergeSettled_feats (fun k f => jsKey f.id = k ∧ f ∈ feats) songs
    m1 [] (m2, errs) h2 hfeat1
  have hfeat3 := mergeRetries_feats (fun k f => jsKey f.id = k ∧ f ∈ feats) retries
    m2 0 (m3, i) h3 hfeat2
  refine ⟨hfeat3, ?_, ?_, ?_, ?_⟩
  · have hbase : ∀ p ∈ m1, ∀ d : String, p.2.analysis = some d →
        (∃ s : RespObj, Settled.resp s ∈ songs ∧ s.status = 200 ∧
           pathKey s.request_path = p.1 ∧ s.data = d) ∨
        (∃ s : RespObj, RetrySettled.resp s ∈ retries ∧ s.status = 200 ∧
           pathKey s.request_path = p.1 ∧ s.data = d) := by
      intro p hp d hpd
      rcases attachAndIssue_analysis feats m m1 h1 p hp with ⟨q, hq, hqa⟩
      rw [hqa, (h0 q hq).2] at hpd
      cases hpd
    have hstep2 : ∀ p ∈ m2, ∀ d : String, p.2.analysis = some d →
        (∃ s : RespObj, Settled.resp s ∈ songs ∧ s.status = 200 ∧
           pathKey s.request_path = p.1 ∧ s.data = d) ∨
        (∃ s : RespObj, RetrySettled.resp s ∈ retries ∧ s.status = 200 ∧
           pathKey s.request_path = p.1 ∧ s.data = d) :=
      mergeSettled_keyed
        (fun k d =>
          (∃ s : RespObj, Settled.resp s ∈ songs ∧ s.status = 200 ∧
             pathKey s.request_path = k ∧ s.data = d) ∨
          (∃ s : RespObj, RetrySettled.resp s ∈ retries ∧ s.status = 200 ∧
             pathKey s.request_path = k ∧ s.data = d))
        songs m1 [] (m2, errs) h2 hbase
        (fun r hr h200 => Or.inl ⟨r, hr, h200, rfl, rfl⟩)
    exact mergeRetries_keyed
      (fun k d =>
        (∃ s : RespObj, Settled.resp s ∈ songs ∧ s.status = 200 ∧
           pathKey s.request_path = k ∧ s.data = d) ∨
        (∃ s : RespObj, RetrySettled.resp s ∈ retries ∧ s.status = 200 ∧
           pathKey s.request_path = k ∧ s.data = d))
      retries m2 0 (m3, i) h3 hstep2
      (fun r hr h200 => Or.inr ⟨r, hr, h200, rfl, rfl⟩)
  · intro f hf
    rcases attachAndIssue_exists feats m m1 h1 f hf with ⟨r, hr, hsome⟩
    rcases mergeSettled_get songs m1 [] (m2, errs) h2 (jsKey f.id) r hr with
      ⟨r2, hr2, hfeq, _⟩
    rcases mergeRetries_get retries m2 0 (m3, i) h3 (jsKey f.id) r2 hr2 with
      ⟨r3, hr3, hfeq2, _⟩
    refine ⟨r3, hr3, ?_⟩
    rw [hfeq2, hfeq]
    exact hsome
  · intro s hs h200
    rcases mergeSettled_exists songs m1 [] (m2, errs) h2 s hs h200 with ⟨sr, hsr, hsome⟩
    rcases mergeRetries_get retries m2 0 (m3, i) h3 (pathKey s.request_path) sr hsr with
      ⟨r3, hr3, _, ha⟩
    exact ⟨r3, hr3, ha hsome⟩
  · intro s hs h200
    exact mergeRetries_exists retries m2 0 (m3, i) h3 s hs h200

/-- C2 witness: two tracks with the features response and the analysis
responses both arriving in the opposite order of the map: each feature and
payload still lands at the record with the matching id. -/
theorem c2_id_keyed_attachment_witness :
    (∀ p ∈ c2m2, ∀ f : FeatureObj, p.2.features = some f → jsKey f.id = p.1 ∧ f ∈ c2feats) ∧
    (∀ p ∈ c2m2, ∀ d : String, p.2.analysis = some d →
       (∃ s : RespObj, Settled.resp s ∈ c2songs ∧ s.status = 200 ∧
          pathKey s.request_path = p.1 ∧ s.data = d) ∨
       (∃ s : RespObj, RetrySettled.resp s ∈ ([] : List RetrySettled) ∧ s.status = 200 ∧
          pathKey s.request_path = p.1 ∧ s.data = d)) ∧
    (∀ f ∈ c2feats, ∃ r, objGet c2m2 (jsKey f.id) = some r ∧ r.features.isSome = true) ∧
    (∀ s : RespObj, Settled.resp s ∈ c2songs → s.status = 200 →
       ∃ r, objGet c2m2 (pathKey s.request_path) = some r ∧ r.analysis.isSome = true) ∧
    (∀ s : RespObj, RetrySettled.resp s ∈ ([] : List RetrySettled) → s.status = 200 →
       ∃ r, objGet c2m2 (pathKey s.request_path) = some r ∧ r.analysis.isSome = true) :=
  c2_id_keyed_attachment c2m c2m1 c2m2 c2m2 c2feats c2songs [] [] 0
    (by decide) rfl rfl rfl

end Spotify
